import Mathlib

/-!
Shallow embedding of `src/task_5/agent.py` (a scripted policy for a 2-player
grid space-strategy game) and verification of the specification claims about
it.  Python dictionaries are modelled as functions into `Option`, machine
integers as `Int`/`Nat`, crashing code paths (KeyError / IndexError /
division by zero) as `Option`-returning functions, and `random` calls as an
explicit oracle state threaded through the computation.
-/

set_option autoImplicit false

namespace TaskFive

/-- The three ship roles (`ROLE_EXPLORE`, `ROLE_ATTACK`, `ROLE_DEFEND`). -/
inductive Role where
  | explore
  | attack
  | defend
deriving DecidableEq, Repr

/-- A ship tuple `(id, x, y, health, firing_cooldown, move_cooldown)`. -/
structure Ship where
  id : Int
  x : Int
  y : Int
  health : Int
  fireCd : Int
  moveCd : Int
deriving DecidableEq, Repr

/-- A planet occupation triple `(x, y, occupation)`. -/
abbrev Planet3 := Int × Int × Int

/-- The observation dictionary passed to `get_action`. -/
structure Obs where
  map : List (List Nat)
  alliedShips : List Ship
  enemyShips : List Ship
  planetsOccupation : List Planet3
  resources : Int

/-- Oracle for the `random` module: an infinite supply of naturals and a
position.  Quantifying over all oracles covers every randomness outcome. -/
structure Rng where
  vals : Nat → Nat
  idx : Nat

/-- Draw the next random value. -/
def Rng.next (r : Rng) : Nat × Rng :=
  (r.vals r.idx, ⟨r.vals, r.idx + 1⟩)

/-- Python `abs` on integers. -/
def iabs (a : Int) : Int := if a < 0 then -a else a

/-- Actions are the raw lists the source builds:
`[ship_id, 0, direction, speed]` for a move, `[ship_id, 1, direction]` for
firing. -/
abbrev Action := List Int

/-- `allied_ships_dict[idx]`: the dictionary is built by inserting each ship
keyed by its id, so a later duplicate id overwrites an earlier one; lookup of
an absent key is a KeyError, modelled as `none`. -/
def shipById : List Ship → Int → Option Ship
  | [], _ => none
  | s :: rest, i =>
    match shipById rest i with
    | some t => some t
    | none => if s.id = i then some s else none

/-- `shoot_enemy_if_in_range(enemy, ship)` (lines 527-561): a firing action
if the enemy shares a row or column, is strictly to one side, and the
coordinate difference is at most 8; otherwise the empty list. -/
def shoot_enemy_if_in_range (enemy ship : Ship) : Action :=
  if ship.y = enemy.y ∧ enemy.x > ship.x ∧ enemy.x - ship.x ≤ 8 then
    [ship.id, 1, 0]
  else if ship.y = enemy.y ∧ enemy.x < ship.x ∧ ship.x - enemy.x ≤ 8 then
    [ship.id, 1, 2]
  else if ship.x = enemy.x ∧ enemy.y > ship.y ∧ enemy.y - ship.y ≤ 8 then
    [ship.id, 1, 1]
  else if ship.x = enemy.x ∧ enemy.y < ship.y ∧ ship.y - enemy.y ≤ 8 then
    [ship.id, 1, 3]
  else
    []

/-- The `for enemy in obs["enemy_ships"]` loops: return the first non-empty
result of `shoot_enemy_if_in_range`, else the empty list. -/
def firstShot (enemies : List Ship) (ship : Ship) : Action :=
  match enemies with
  | [] => []
  | e :: es =>
    let c := shoot_enemy_if_in_range e ship
    if c ≠ [] then c else firstShot es ship

/-- `return_home(ship, home_x, home_y)` (lines 603-622). -/
def return_home (s : Ship) (hx hy : Int) : Action :=
  let dx := s.x - hx
  let dy := s.y - hy
  if iabs dx > iabs dy then
    if dx > 0 then [s.id, 0, 2, min 3 (iabs dx)]
    else [s.id, 0, 0, min 3 (iabs dx)]
  else
    if dy > 0 then [s.id, 0, 3, min 3 (iabs dy)]
    else [s.id, 0, 1, min 3 (iabs dy)]

/-- Python `format(v, '08b')`: binary digits of `v`, left-padded with `'0'`
to at least 8 characters. -/
def format08b (v : Nat) : List Char :=
  let s := Nat.toDigits 2 v
  List.replicate (8 - s.length) '0' ++ s

/-- `format(point, '08b')[-2] == '1'`: the asteroid test applied to a tile
value (body of `is_asteroid`, line 628). -/
def asteroidCheck (v : Nat) : Bool :=
  (format08b v).reverse.getD 1 '0' == '1'

/-- `format(v, '08b')[-1] == '1' and format(v, '08b')[0:2] == '00'`: the
"valuable tile" test used by `get_explore_action` (lines 357 and 361). -/
def valuableCheck (v : Nat) : Bool :=
  (format08b v).reverse.getD 0 '0' == '1' && (format08b v).take 2 == ['0', '0']

/-- `obs['map'][i][j]` with nonnegative indices; `none` is an IndexError. -/
def mapAt (m : List (List Nat)) (i j : Nat) : Option Nat :=
  match m.get? i with
  | none => none
  | some row => row.get? j

/-- `is_asteroid(obs, x, y)` (lines 624-631), called with the candidate
coordinates already checked to be nonnegative. -/
def is_asteroid (m : List (List Nat)) (x y : Int) : Option Bool :=
  if 0 ≤ x ∧ 0 ≤ y then (mapAt m x.toNat y.toNat).map asteroidCheck
  else none

/-- The check performed by the `with_emergency_return` decorator
(lines 12-28) before the wrapped behavior runs.  `none` is a crash
(absent ship id, or `planets_occupation[0]` on an empty list);
`some (some a)` means the wrapper overrides with action `a`;
`some none` means it falls through to the wrapped behavior. -/
def emergencyCheck (obs : Obs) (idx : Int) (px py : Int) :
    Option (Option Action) :=
  match shipById obs.alliedShips idx with
  | none => none
  | some s =>
    if iabs (s.x - px) + iabs (s.y - py) ≤ 100 then
      match obs.planetsOccupation with
      | [] => none
      | p :: _ =>
        if px = 9 ∧ p.2.2 ≠ 0 then some (some (return_home s px py))
        else if px = 90 ∧ p.2.2 ≠ 100 then some (some (return_home s px py))
        else some none
    else some none

/-- Body of `get_offense_action` (lines 281-323) after the decorator:
fire at the first in-range enemy when the firing cooldown is 0, otherwise
move toward the planet `(px, py)` along the axis with the larger distance. -/
def offenseBody (obs : Obs) (idx : Int) (px py : Int) : Option Action :=
  match shipById obs.alliedShips idx with
  | none => none
  | some s =>
    let shot := if s.fireCd = 0 then firstShot obs.enemyShips s else []
    if shot ≠ [] then some shot
    else
      let dx := px - s.x
      let dy := py - s.y
      let dir : Int :=
        if iabs dx > iabs dy then (if dx > 0 then 0 else 2)
        else (if dy > 0 then 1 else 3)
      let speed : Int := if s.moveCd = 0 then 3 else 1
      some [s.id, 0, dir, speed]

/-- `get_offense_action` with its `with_emergency_return` wrapper.  As
dispatched by `get_action`, `(px, py)` is `self.enemy_planet`. -/
def get_offense_action (obs : Obs) (idx : Int) (px py : Int) : Option Action :=
  match emergencyCheck obs idx px py with
  | none => none
  | some (some a) => some a
  | some none => offenseBody obs idx px py

/-- The retry loop of `move_randomly_around_home` (lines 563-600) with the
remaining iteration count as fuel (the source runs exactly 10 attempts) and
the previously attempted direction; when the fuel runs out the last attempted
direction is returned even if invalid. -/
def moveRandomlyLoop (m : List (List Nat)) (s : Ship) (hx hy : Int) :
    Nat → Rng → Int → Option (Action × Rng)
  | 0, rng, lastDir => some ([s.id, 0, lastDir, 1], rng)
  | k + 1, rng, _ =>
    let pick : Int × Rng :=
      if hx = 9 ∧ s.x ≤ hx then (0, rng)
      else if hy = 9 ∧ s.y ≤ hy then (1, rng)
      else if hx = 90 ∧ s.x ≥ hx then (2, rng)
      else if hy = 90 ∧ s.y ≥ hy then (3, rng)
      else
        let vr := rng.next
        (((vr.1 : Int) % 4), vr.2)
    let dir := pick.1
    let rng1 := pick.2
    let nx := s.x + (if dir = 0 then 1 else if dir = 2 then -1 else 0)
    let ny := s.y + (if dir = 1 then 1 else if dir = 3 then -1 else 0)
    if ¬(0 ≤ nx ∧ nx < 100 ∧ 0 ≤ ny ∧ ny < 100) then
      moveRandomlyLoop m s hx hy k rng1 dir
    else if iabs (nx - hx) + iabs (ny - hy) > 15 then
      moveRandomlyLoop m s hx hy k rng1 dir
    else
      match is_asteroid m nx ny with
      | none => none
      | some true => moveRandomlyLoop m s hx hy k rng1 dir
      | some false => some ([s.id, 0, dir, 1], rng1)

/-- `move_randomly_around_home(obs, ship, home_x, home_y)` with the default
`max_distance=15`. -/
def move_randomly_around_home (m : List (List Nat)) (s : Ship) (hx hy : Int)
    (rng : Rng) : Option (Action × Rng) :=
  moveRandomlyLoop m s hx hy 10 rng 0

/-- Body of `get_defense_action` (lines 513-524) after the decorator.  Note
that unlike the other two roles it attempts to fire without checking the
firing cooldown. -/
def defenseBody (obs : Obs) (idx : Int) (px py : Int) (rng : Rng) :
    Option (Action × Rng) :=
  match shipById obs.alliedShips idx with
  | none => none
  | some s =>
    let shot := firstShot obs.enemyShips s
    if shot ≠ [] then some (shot, rng)
    else if s.health ≤ 30 then some (return_home s px py, rng)
    else move_randomly_around_home obs.map s px py rng

/-- `get_defense_action` with its `with_emergency_return` wrapper.  As
dispatched by `get_action`, `(px, py)` is `self.home_planet`. -/
def get_defense_action (obs : Obs) (idx : Int) (px py : Int) (rng : Rng) :
    Option (Action × Rng) :=
  match emergencyCheck obs idx px py with
  | none => none
  | some (some a) => some (a, rng)
  | some none => defenseBody obs idx px py rng

/-- An exploration pattern entry of `agent.ship_directions` (a dict with
keys `primary`, `secondary`, `primary_weight`, `secondary_weight`). -/
structure ExplorePattern where
  primary : Int
  secondary : Int
  primaryWeight : Int
  secondaryWeight : Int
deriving DecidableEq, Repr

/-- The mutable per-match state held on the `Agent` object.  Python dicts
are functions into `Option`; `ship_bump_count` is read with
`.get(ship_id, 0)` so it is modelled as a total function defaulting to 0. -/
structure AgentState where
  side : Int
  homePlanet : Option Planet3
  enemyPlanet : Option (Int × Int)
  shipRoles : Int → Option Role
  turnCounter : Nat
  lastKnownEnemyPositions : Int → Option (Int × Int × Nat)
  shipBumpCount : Int → Int
  shipDirections : Int → Option ExplorePattern
  shipPatterns : Int → Option Nat
  exploreDirectionCounter : Nat

/-- The pattern assigned on first exploration (lines 382-431), keyed by the
home corner (`home_planet[0] == 9`) and the round-robin pattern number. -/
def initPattern (px : Int) (epat : Nat) : ExplorePattern :=
  if px = 9 then
    if epat = 0 then ⟨0, 1, 4, 1⟩
    else if epat = 1 then ⟨1, 0, 4, 1⟩
    else ⟨0, 1, 1, 1⟩
  else
    if epat = 0 then ⟨2, 3, 4, 1⟩
    else if epat = 1 then ⟨3, 2, 4, 1⟩
    else ⟨2, 3, 1, 1⟩

/-- The four sequential border checks of `get_explore_action`
(lines 441-463): each flips the corresponding direction in place; the
vertical checks observe the value left by the horizontal ones.  Returns the
updated pattern and whether any border was hit. -/
def borderFlip (pat : ExplorePattern) (x y : Int) : ExplorePattern × Bool :=
  let ph : Int × Bool :=
    if (pat.primary = 0 ∧ x ≥ 99) ∨ (pat.primary = 2 ∧ x ≤ 0) then
      ((if pat.primary = 0 then 2 else 0), true)
    else (pat.primary, false)
  let sh : Int × Bool :=
    if (pat.secondary = 0 ∧ x ≥ 99) ∨ (pat.secondary = 2 ∧ x ≤ 0) then
      ((if pat.secondary = 0 then 2 else 0), true)
    else (pat.secondary, false)
  let pv : Int × Bool :=
    if (ph.1 = 1 ∧ y ≥ 99) ∨ (ph.1 = 3 ∧ y ≤ 0) then
      ((if ph.1 = 1 then 3 else 1), true)
    else (ph.1, false)
  let sv : Int × Bool :=
    if (sh.1 = 1 ∧ y ≥ 99) ∨ (sh.1 = 3 ∧ y ≤ 0) then
      ((if sh.1 = 1 then 3 else 1), true)
    else (sh.1, false)
  (⟨pv.1, sv.1, pat.primaryWeight, pat.secondaryWeight⟩,
    ph.2 || sh.2 || pv.2 || sv.2)

/-- Count the valuable tiles in the window
`[max(0,i-3), min(H,i+3)) x [max(0,j-3), min(len(row_i),j+3))`
(lines 358-362); `none` on an IndexError for a ragged map. -/
def windowCount (m : List (List Nat)) (rowLen i j : Nat) : Option Nat :=
  let xs := List.range' (i - 3) (min m.length (i + 3) - (i - 3))
  let ys := List.range' (j - 3) (min rowLen (j + 3) - (j - 3))
  xs.foldl
    (fun acc x =>
      ys.foldl
        (fun acc2 y =>
          match acc2, mapAt m x y with
          | some c, some v => some (if valuableCheck v then c + 1 else c)
          | _, _ => none)
        acc)
    (some 0)

/-- Inner loop of the valuable-tile scan: walk the cells of row `i`,
keeping the best `(target_x, target_y) = (j, i)` under strict improvement
of the window count (initial best count is -1). -/
def scanRow (m : List (List Nat)) (i : Nat) (row : List Nat) :
    List Nat → Option (Int × Int) × Int → Option (Option (Int × Int) × Int)
  | [], st => some st
  | j :: rest, st =>
    match row.get? j with
    | none => none
    | some v =>
      if valuableCheck v then
        match windowCount m row.length i j with
        | none => none
        | some cnt =>
          let st2 := if (cnt : Int) > st.2 then
              (some ((j : Int), (i : Int)), (cnt : Int))
            else st
          scanRow m i row rest st2
      else scanRow m i row rest st

/-- Outer loop of the valuable-tile scan over the row indices. -/
def scanRows (m : List (List Nat)) :
    List Nat → Option (Int × Int) × Int → Option (Option (Int × Int) × Int)
  | [], st => some st
  | i :: rest, st =>
    match m.get? i with
    | none => none
    | some row =>
      match scanRow m i row (List.range row.length) st with
      | none => none
      | some st2 => scanRows m rest st2

/-- The whole-map scan of `get_explore_action` (lines 350-366):
`some none` when no valuable tile was found, `some (some (tx, ty))` for the
chosen target, `none` on an IndexError. -/
def scanMap (m : List (List Nat)) : Option (Option (Int × Int)) :=
  (scanRows m (List.range m.length) (none, -1)).map Prod.fst

/-- Lazy initialization of the exploration pattern (lines 369-434): if the
ship has no direction entry yet, assign the next round-robin pattern,
recording it in `ship_patterns`/`ship_directions` and zeroing the ship's
bump count. -/
def exploreInit (px : Int) (sid : Int) (ag : AgentState) : AgentState :=
  if (ag.shipDirections sid).isSome then ag
  else
    let epat := ag.exploreDirectionCounter % 3
    { ag with
      shipPatterns := fun j =>
        if j = sid then some epat else ag.shipPatterns j,
      exploreDirectionCounter := ag.exploreDirectionCounter + 1,
      shipDirections := fun j =>
        if j = sid then some (initPattern px epat) else ag.shipDirections j,
      shipBumpCount := fun j =>
        if j = sid then 0 else ag.shipBumpCount j }

/-- The weighted-cycle wander move (lines 476-493), computed from the
(possibly flipped) pattern `pat1`; division by a zero total weight would be
a ZeroDivisionError (`none`), though initialized patterns always have
positive weights. -/
def wanderMove (s : Ship) (pat1 : ExplorePattern) (agN : AgentState)
    (rng : Rng) : Option (Action × AgentState × Rng) :=
  let tw := pat1.primaryWeight + pat1.secondaryWeight
  if tw = 0 then none
  else
    let step := ((agN.turnCounter : Int) + s.id) % tw
    let dir := if step < pat1.primaryWeight then pat1.primary
      else pat1.secondary
    let speed : Int := if s.moveCd > 0 then 1 else 3
    some ([s.id, 0, dir, speed], agN, rng)

/-- The wander branch of `get_explore_action` (lines 436-493): read the
pattern (a missing `ship_patterns` entry is a KeyError), bounce off
borders, count bumps, self-promote to Attack on the second bump and return
an offense action at once, else make the wander move. -/
def exploreWander (obs : Obs) (idx : Int) (s : Ship) (ag1 : AgentState)
    (rng : Rng) : Option (Action × AgentState × Rng) :=
  match ag1.shipDirections s.id, ag1.shipPatterns s.id with
  | some pat, some _ =>
    let bf := borderFlip pat s.x s.y
    let ag2 := { ag1 with shipDirections := fun j =>
      if j = s.id then some bf.1 else ag1.shipDirections j }
    if bf.2 then
      let newBump := ag2.shipBumpCount s.id + 1
      let ag3 := { ag2 with shipBumpCount := fun j =>
        if j = s.id then newBump else ag2.shipBumpCount j }
      if newBump ≥ 2 then
        let ag4 := { ag3 with shipRoles := fun j =>
          if j = s.id then some Role.attack else ag3.shipRoles j }
        match ag4.enemyPlanet with
        | none => none
        | some ep =>
          match get_offense_action obs idx ep.1 ep.2 with
          | none => none
          | some a => some (a, ag4, rng)
      else wanderMove s bf.1 ag3 rng
    else wanderMove s bf.1 ag2 rng
  | _, _ => none

/-- Body of `get_explore_action` (lines 326-509) after the decorator,
threading the agent state and the randomness oracle. -/
def exploreBody (obs : Obs) (idx : Int) (px py : Int) (ag : AgentState)
    (rng : Rng) : Option (Action × AgentState × Rng) :=
  match shipById obs.alliedShips idx with
  | none => none
  | some s =>
    let shot := if s.fireCd = 0 then firstShot obs.enemyShips s else []
    if shot ≠ [] then some (shot, ag, rng)
    else
      match scanMap obs.map with
      | none => none
      | some (some target) =>
        -- move toward the target with a random jitter of plus or minus 2
        let c1 := rng.next
        let cx := if c1.1 % 2 = 0 then target.1 + 2 else target.1 - 2
        let c2 := c1.2.next
        let cy := if c2.1 % 2 = 0 then target.2 + 2 else target.2 - 2
        let dx := s.x - cx
        let dy := s.y - cy
        let a : Action :=
          if iabs dx > iabs dy then
            if dx > 0 then [s.id, 0, 2, min 3 (iabs dx)]
            else [s.id, 0, 0, min 3 (iabs dx)]
          else
            if dy > 0 then [s.id, 0, 3, min 3 (iabs dy)]
            else [s.id, 0, 1, min 3 (iabs dy)]
        some (a, ag, c2.2)
      | some none =>
        exploreWander obs idx s (exploreInit px s.id ag) rng

/-- `get_explore_action` with its `with_emergency_return` wrapper.  As
dispatched by `get_action`, `(px, py)` is `self.home_planet`. -/
def get_explore_action (obs : Obs) (idx : Int) (px py : Int)
    (ag : AgentState) (rng : Rng) : Option (Action × AgentState × Rng) :=
  match emergencyCheck obs idx px py with
  | none => none
  | some (some a) => some (a, ag, rng)
  | some none => exploreBody obs idx px py ag rng

/-- The `role_counts` dictionary, created with the three roles as keys in
the order explore, attack, defend (line 183). -/
structure RoleCounts where
  explore : Nat
  attack : Nat
  defend : Nat
deriving DecidableEq, Repr

/-- `role_counts[r]`. -/
def RoleCounts.get (c : RoleCounts) : Role → Nat
  | Role.explore => c.explore
  | Role.attack => c.attack
  | Role.defend => c.defend

/-- `role_counts[r] += 1`. -/
def RoleCounts.inc (c : RoleCounts) : Role → RoleCounts
  | Role.explore => { c with explore := c.explore + 1 }
  | Role.attack => { c with attack := c.attack + 1 }
  | Role.defend => { c with defend := c.defend + 1 }

/-- `role_counts[r] -= 1` (only ever applied when the count is positive). -/
def RoleCounts.dec (c : RoleCounts) : Role → RoleCounts
  | Role.explore => { c with explore := c.explore - 1 }
  | Role.attack => { c with attack := c.attack - 1 }
  | Role.defend => { c with defend := c.defend - 1 }

/-- `self.ship_roles[i] = r`. -/
def updateRole (roles : Int → Option Role) (i : Int) (r : Role) :
    Int → Option Role :=
  fun j => if j = i then some r else roles j

/-- The bootstrap default role derived from `id mod 3` (lines 193-198). -/
def defaultRole (i : Int) : Role :=
  if i % 3 = 2 then Role.defend
  else if i % 3 = 0 then Role.explore
  else Role.attack

/-- The scheduler state threaded through the balancing pass: the role map
and the `role_counts` dictionary. -/
structure SchedSt where
  roles : Int → Option Role
  counts : RoleCounts

/-- Step 1 of the scheduler (lines 187-203): give every roster ship a
default role if it has none, and count the current role distribution. -/
def schedulerStep1 : List Ship → SchedSt → SchedSt
  | [], st => st
  | s :: rest, st =>
    let roles1 :=
      match st.roles s.id with
      | some _ => st.roles
      | none => updateRole st.roles s.id (defaultRole s.id)
    let cur := (roles1 s.id).getD Role.explore
    schedulerStep1 rest ⟨roles1, st.counts.inc cur⟩

/-- The phase-dependent target distribution (lines 211-230), with the float
truncation `int(n * 0.8)` rendered as natural floor division `8 * n / 10`
(they agree for every realistic fleet size). -/
def targetDistribution (turn : Nat) (n : Nat) : Role → Nat :=
  if turn < 250 then fun r =>
    match r with
    | Role.explore => max 1 (8 * n / 10)
    | Role.attack => max 0 (0 * n)
    | Role.defend => max 0 (2 * n / 10)
  else if turn < 750 then fun r =>
    match r with
    | Role.explore => max 0 (8 * n / 10)
    | Role.attack => max 1 (0 * n)
    | Role.defend => max 0 (2 * n / 10)
  else fun r =>
    match r with
    | Role.explore => max 1 (0 * n)
    | Role.attack => max 0 (1 * n)
    | Role.defend => max 1 (0 * n)

/-- The `for ship in allied_ships` search (lines 249-264): the first roster
ship currently holding `excess` that is not blocked by the health rule for
a reassignment to `dest`. -/
def findEligible (roles : Int → Option Role) (excess dest : Role) :
    List Ship → Option Ship
  | [] => none
  | s :: rest =>
    if roles s.id = some excess ∧ ¬(dest = Role.attack ∧ s.health < 30) then
      some s
    else findEligible roles excess dest rest

/-- One reassignment attempt from surplus role `ex` to deficit role `dest`
(lines 249-264): move the first eligible ship, updating the role map and
the counts; no change if no ship is eligible. -/
def tryOneReassign (ships : List Ship) (dest ex : Role) (st : SchedSt) :
    SchedSt :=
  match findEligible st.roles ex dest ships with
  | some s => ⟨updateRole st.roles s.id dest, (st.counts.dec ex).inc dest⟩
  | none => st

/-- The `for excess_role in role_counts` pass (lines 246-268) for one
deficit role `dest`: take at most one ship from each surplus role, stopping
as soon as the target is reached.  (The enclosing `while` of the source
always exits after this single pass: the pass either reaches the target,
falsifying the loop condition, or ends with `current_count < target_count`,
which hits the trailing `break`.) -/
def tryExcessList (ships : List Ship) (tgt : Role → Nat) (dest : Role) :
    List Role → SchedSt → SchedSt
  | [], st => st
  | ex :: rest, st =>
    if ex ≠ dest ∧ st.counts.get ex > tgt ex then
      let st1 := tryOneReassign ships dest ex st
      if st1.counts.get dest ≥ tgt dest then st1
      else tryExcessList ships tgt dest rest st1
    else tryExcessList ships tgt dest rest st

/-- Rebalancing for a single deficit role (one iteration of the
`for role, target_count in target_distribution.items()` loop,
lines 240-272). -/
def rebalanceOne (ships : List Ship) (tgt : Role → Nat) (dest : Role)
    (st : SchedSt) : SchedSt :=
  if st.counts.get dest < tgt dest then
    tryExcessList ships tgt dest [Role.explore, Role.attack, Role.defend] st
  else st

/-- `Agent.scheduler` (lines 166-278): default assignment and counting,
rebalancing toward the phase target (iterating the target roles in
insertion order explore, attack, defend), then removal of entries for
vanished ship ids. -/
def scheduler (turn : Nat) (roles : Int → Option Role)
    (ships : List Ship) : Int → Option Role :=
  let st1 := schedulerStep1 ships ⟨roles, ⟨0, 0, 0⟩⟩
  let tgt := targetDistribution turn ships.length
  let st2 := rebalanceOne ships tgt Role.defend
    (rebalanceOne ships tgt Role.attack
      (rebalanceOne ships tgt Role.explore st1))
  fun i => if ships.any (fun s => s.id == i) then st2.roles i else none

/-- The output batch of `get_action`. -/
structure Batch where
  shipsActions : List Action
  construction : Int
deriving DecidableEq, Repr

/-- First-call latching of home and enemy planets (lines 115-122). -/
def latchPlanets (st : AgentState) (planets : List Planet3) : AgentState :=
  match st.homePlanet, planets with
  | none, p :: _ =>
    { st with
      homePlanet := some p,
      enemyPlanet := some (if p.1 = 9 then ((90 : Int), (90 : Int)) else (9, 9)) }
  | _, _ => st

/-- Tracking update for last known enemy positions (lines 134-136). -/
def updLastKnown (st : AgentState) : List Ship → AgentState
  | [] => st
  | e :: es =>
    updLastKnown
      { st with lastKnownEnemyPositions := fun j =>
          if j = e.id then some (e.x, e.y, st.turnCounter)
          else st.lastKnownEnemyPositions j }
      es

/-- The per-ship dispatch loop of `get_action` (lines 142-159), threading
the agent state and randomness through the role behaviors.  A missing role
entry or a missing home/enemy planet is a crash (`none`), exactly as the
unguarded subscripts in the source. -/
def actLoop (obs : Obs) :
    List Ship → AgentState → Rng → List Action →
    Option (List Action × AgentState × Rng)
  | [], st, rng, acc => some (acc, st, rng)
  | s :: rest, st, rng, acc =>
    match st.shipRoles s.id with
    | none => none
    | some role =>
      match role with
      | Role.defend =>
        match st.homePlanet with
        | none => none
        | some hp =>
          match get_defense_action obs s.id hp.1 hp.2.1 rng with
          | none => none
          | some (a, rng2) => actLoop obs rest st rng2 (acc ++ [a])
      | Role.explore =>
        match st.homePlanet with
        | none => none
        | some hp =>
          match get_explore_action obs s.id hp.1 hp.2.1 st rng with
          | none => none
          | some (a, st2, rng2) => actLoop obs rest st2 rng2 (acc ++ [a])
      | Role.attack =>
        match st.enemyPlanet with
        | none => none
        | some ep =>
          match get_offense_action obs s.id ep.1 ep.2 with
          | none => none
          | some a => actLoop obs rest st rng (acc ++ [a])

/-- `Agent.get_action` (lines 61-164): bump the turn counter, latch the
planets, update tracking, run the scheduler, dispatch every allied ship to
its role behavior, and return the batch with a constant construction
request of 10. -/
def get_action (st0 : AgentState) (obs : Obs) (rng : Rng) :
    Option (Batch × AgentState × Rng) :=
  let st1 := { st0 with turnCounter := st0.turnCounter + 1 }
  let st2 := latchPlanets st1 obs.planetsOccupation
  let st3 := updLastKnown st2 obs.enemyShips
  let st4 := { st3 with
    shipRoles := scheduler st3.turnCounter st3.shipRoles obs.alliedShips }
  match actLoop obs obs.alliedShips st4 rng [] with
  | none => none
  | some (acts, st5, rng5) => some (⟨acts, 10⟩, st5, rng5)

/-! ### Claim-side vocabulary and concrete inputs used by the theorems -/

/-- Claim-side notion (C3): the coordinate difference along the shared axis
of two aligned ships. -/
def alignedDist (ship enemy : Ship) : Int :=
  if ship.y = enemy.y then iabs (ship.x - enemy.x) else iabs (ship.y - enemy.y)

/-- Claim-side notion (C3): the cardinal direction from the ship toward the
enemy when they are aligned and distinct (0 right, 1 down, 2 left, 3 up). -/
def specCardinalDir (ship enemy : Ship) : Option Int :=
  if ship.y = enemy.y then
    if enemy.x > ship.x then some 0
    else if enemy.x < ship.x then some 2
    else none
  else if ship.x = enemy.x then
    if enemy.y > ship.y then some 1 else some 3
  else none

/-- Claim-side notion (C9): apply a movement action, moving `speed` tiles in
the encoded cardinal direction (0 right, 1 down, 2 left, 3 up); any other
action leaves the position unchanged. -/
def applyMove (x y : Int) (a : Action) : Int × Int :=
  match a with
  | [_, t, d, sp] =>
    if t = 0 then
      (x + (if d = 0 then sp else if d = 2 then -sp else 0),
       y + (if d = 1 then sp else if d = 3 then -sp else 0))
    else (x, y)
  | _ => (x, y)

/-- Manhattan distance between two grid points. -/
def manhattan (x y hx hy : Int) : Int :=
  iabs (x - hx) + iabs (y - hy)

/-- Claim-side notion (C8): the action is a move whose direction points from
the ship toward the planet `(px, py)`. -/
def movesToward (a : Action) (s : Ship) (px py : Int) : Prop :=
  (a.get? 2 = some 0 ∧ s.x < px) ∨ (a.get? 2 = some 1 ∧ s.y < py) ∨
  (a.get? 2 = some 2 ∧ px < s.x) ∨ (a.get? 2 = some 3 ∧ py < s.y)

/-- Claim-side notion (C8): an attack-style action — a firing action, or a
move toward the enemy planet. -/
def attackStyle (a : Action) (s : Ship) (px py : Int) : Prop :=
  a.get? 1 = some 1 ∨ (a.get? 1 = some 0 ∧ movesToward a s px py)

/-- A deterministic randomness oracle used for concrete runs. -/
def rng0 : Rng := ⟨fun _ => 0, 0⟩

/-- A fresh agent state (as built by `Agent.__init__`) whose turn counter
has advanced to 999, so that the next `get_action` call is turn 1000. -/
def stC2 : AgentState :=
  ⟨0, none, none, fun _ => none, 999, fun _ => none, fun _ => 0,
   fun _ => none, fun _ => none, 0⟩

/-- A ship two tiles from its home planet, firing cooldown 1. -/
def shipC2 : Ship := ⟨1, 10, 10, 100, 1, 0⟩

/-- Observation for the C2 counterexample: home planet (9, 9) with
occupation 50 (not fully owned), one allied ship near home, no enemies. -/
def obsC2 : Obs := ⟨[[0]], [shipC2], [], [(9, 9, 50)], 0⟩

/-- A defending ship with nonzero firing cooldown. -/
def shipC7 : Ship := ⟨1, 50, 50, 100, 5, 0⟩

/-- Observation for the C7 counterexample: an aligned enemy 5 tiles below
the defender, home planet fully owned. -/
def obsC7 : Obs := ⟨[[0]], [shipC7], [⟨2, 50, 55, 100, 0, 0⟩], [(9, 9, 0)], 0⟩

/-- An exploring ship on the right border. -/
def shipC8 : Ship := ⟨4, 99, 50, 100, 0, 0⟩

/-- Observation for the C8 witness: no valuable tiles, no enemies, home
planet (90, 90) fully owned by the second player. -/
def obsC8 : Obs := ⟨[[0]], [shipC8], [], [(90, 90, 100)], 0⟩

/-- Agent state for the C8 witness: ship 4 explores with the mainly-right
pattern and has one recorded border bump. -/
def agC8 : AgentState :=
  ⟨0, some (90, 90, 100), some (9, 9),
   (fun j => if j = 4 then some Role.explore else none), 17, fun _ => none,
   (fun j => if j = 4 then 1 else 0),
   (fun j => if j = 4 then some ⟨0, 1, 4, 1⟩ else none),
   (fun j => if j = 4 then some 0 else none), 1⟩

/-! ### Theorems -/

/-- Claim C10: for every observation (and agent state and randomness
oracle), whenever `get_action` returns a batch at all, its `construction`
field is exactly 10, independent of resources, fleet size, or any other
field of the observation. -/
theorem construction_always_ten (st : AgentState) (obs : Obs) (rng : Rng)
    (r : Batch × AgentState × Rng) (h : get_action st obs rng = some r) :
    r.1.construction = 10 := by
  simp only [get_action] at h
  split at h
  · cases h
  · cases h; rfl

/-- Witness for C10: a concrete `get_action` call returning construction
request 10. -/
theorem construction_always_ten_witness :
    ∃ r, get_action stC2 obsC2 rng0 = some r ∧ r.1.construction = 10 := by
  have hs : (get_action stC2 obsC2 rng0).isSome = true := rfl
  exact ⟨(get_action stC2 obsC2 rng0).get hs, (Option.some_get hs).symm,
    construction_always_ten _ _ _ _ (Option.some_get hs).symm⟩

/-- Counterexample to C6 as stated: the spec calls bit 6 (from LSB = 0)
the asteroid flag, but `is_asteroid` tests `format(v,'08b')[-2]`, which is
bit 1: value 64 has bit 6 set yet is not classified an asteroid, and value
2 has bit 6 clear yet is classified an asteroid. -/
theorem tile_bits_cex :
    asteroidCheck 64 = false ∧ Nat.testBit 64 6 = true ∧
    asteroidCheck 2 = true ∧ Nat.testBit 2 6 = false := by
  refine ⟨by decide, by decide, by decide, by decide⟩

set_option maxRecDepth 100000 in
/-- C6 amended: for every 8-bit tile value, the asteroid test checks bit 1
(the second-from-last character of the 8-bit binary string), and the
valuable test checks that bit 0 is set and bits 7 and 6 are clear. -/
theorem tile_bits_amended : ∀ v : Nat, v < 256 →
    asteroidCheck v = v.testBit 1 ∧
    valuableCheck v = (v.testBit 0 && !v.testBit 6 && !v.testBit 7) := by
  decide

/-- Witness for the amended C6 at tile value 2. -/
theorem tile_bits_amended_witness :
    asteroidCheck 2 = Nat.testBit 2 1 ∧
    valuableCheck 2 = (Nat.testBit 2 0 && !Nat.testBit 2 6 && !Nat.testBit 2 7) :=
  tile_bits_amended 2 (by decide)

/-- Counterexample to C4 as stated: the early-game and mid-game targets are
not identical — the Attack target is `max(0, 0) = 0` before turn 250 but
`max(1, 0) = 1` from turn 250 on (and the claim's mid-game Attack share of
0% also fails). -/
theorem target_distribution_cex :
    targetDistribution 100 10 Role.attack = 0 ∧
    targetDistribution 300 10 Role.attack = 1 := ⟨rfl, rfl⟩

/-- C4 amended: for fleet size n the targets are — turns < 250:
Explore max(1, ⌊0.8n⌋), Attack 0, Defend ⌊0.2n⌋; turns in [250, 750):
Explore ⌊0.8n⌋, Attack 1, Defend ⌊0.2n⌋; turns ≥ 750: Explore 1, Attack n,
Defend 1.  Early and mid game differ in the minima applied to Explore
(1 vs 0) and Attack (0 vs 1). -/
theorem target_distribution_amended : ∀ turn n : Nat,
    (turn < 250 →
      targetDistribution turn n Role.explore = max 1 (8 * n / 10) ∧
      targetDistribution turn n Role.attack = 0 ∧
      targetDistribution turn n Role.defend = 2 * n / 10) ∧
    (250 ≤ turn → turn < 750 →
      targetDistribution turn n Role.explore = 8 * n / 10 ∧
      targetDistribution turn n Role.attack = 1 ∧
      targetDistribution turn n Role.defend = 2 * n / 10) ∧
    (750 ≤ turn →
      targetDistribution turn n Role.explore = 1 ∧
      targetDistribution turn n Role.attack = n ∧
      targetDistribution turn n Role.defend = 1) := by
  intro turn n
  unfold targetDistribution
  refine ⟨fun h1 => ?_, fun h1 h2 => ?_, fun h1 => ?_⟩ <;>
    split_ifs <;> simp_all <;> omega

/-- Witness for the amended C4 at turn 800 with 7 ships. -/
theorem target_distribution_amended_witness :
    targetDistribution 800 7 Role.explore = 1 ∧
    targetDistribution 800 7 Role.attack = 7 ∧
    targetDistribution 800 7 Role.defend = 1 :=
  (target_distribution_amended 800 7).2.2 (by omega)

/-- Claim C9: from any position distinct from home, applying the movement
action emitted by `return_home` strictly decreases the Manhattan distance
to home (the emitted speed never overshoots), so repeated application
reaches home. -/
theorem return_home_progress : ∀ (s : Ship) (hx hy : Int),
    (s.x, s.y) ≠ (hx, hy) →
    manhattan (applyMove s.x s.y (return_home s hx hy)).1
        (applyMove s.x s.y (return_home s hx hy)).2 hx hy <
      manhattan s.x s.y hx hy := by
  intro s hx hy h
  simp only [Ne, Prod.mk.injEq, not_and] at h
  simp only [return_home]
  split_ifs with h1 h2 h3 <;>
  · simp only [applyMove]
    norm_num
    simp only [manhattan, iabs, min_def] at *
    split_ifs at * <;> omega

/-- Witness for C9: a ship at (7, 2) moving home to (9, 9). -/
theorem return_home_progress_witness :
    manhattan (applyMove (7 : Int) 2 (return_home ⟨3, 7, 2, 100, 0, 0⟩ 9 9)).1
        (applyMove (7 : Int) 2 (return_home ⟨3, 7, 2, 100, 0, 0⟩ 9 9)).2 9 9 <
      manhattan 7 2 9 9 :=
  return_home_progress ⟨3, 7, 2, 100, 0, 0⟩ 9 9 (by decide)

/-- Counterexample to C2 as stated: an Attack-role ship 2 tiles from its
home planet (9, 9) whose occupation is 50 (not the fully-owned 0) — the
claim demands a return-home move, but the dispatched offense behavior is
wrapped with the enemy planet (90, 90) as reference, so the emitted action
is `[1, 0, 1, 3]` (down toward the enemy planet), not the return-home move
`[1, 0, 3, 1]`. -/
theorem emergency_override_cex :
    (get_action stC2 obsC2 rng0).map (fun r => r.1.shipsActions) =
      some [[1, 0, 1, 3]] ∧
    return_home shipC2 9 9 = [1, 0, 3, 1] ∧
    manhattan shipC2.x shipC2.y 9 9 ≤ 100 ∧
    obsC2.planetsOccupation = [(9, 9, 50)] ∧ (50 : Int) ≠ 0 ∧
    ([1, 0, 1, 3] : Action) ≠ [1, 0, 3, 1] := by
  refine ⟨rfl, rfl, by decide, rfl, by decide, by decide⟩

/-- Counterexample to C7 as stated: a Defend-role ship with firing cooldown
5 still emits the fire action `[1, 1, 1]` at an aligned enemy 5 tiles away —
`get_defense_action` has no cooldown gate on its fire attempt. -/
theorem fire_cooldown_cex :
    (get_defense_action obsC7 1 9 9 rng0).map Prod.fst = some [1, 1, 1] ∧
    shipById obsC7.alliedShips 1 = some shipC7 ∧
    shipC7.fireCd = 5 := ⟨rfl, rfl, rfl⟩

/-- Counterexample to C3 as stated: two ships on the same cell share a row
and have coordinate difference 0 ≤ 8, yet `shoot_enemy_if_in_range` returns
no shot, so the claimed "if and only if" fails. -/
theorem shoot_in_range_cex :
    shoot_enemy_if_in_range ⟨50, 10, 10, 100, 0, 0⟩ ⟨7, 10, 10, 100, 0, 0⟩ =
      [] ∧
    (⟨7, 10, 10, 100, 0, 0⟩ : Ship).y = (⟨50, 10, 10, 100, 0, 0⟩ : Ship).y ∧
    alignedDist ⟨7, 10, 10, 100, 0, 0⟩ ⟨50, 10, 10, 100, 0, 0⟩ ≤ 8 :=
  ⟨rfl, rfl, by decide⟩

/-- C3 amended: `shoot_enemy_if_in_range(enemy, ship)` returns a fire
action iff the ships are at distinct positions, share a row or a column,
and the coordinate difference along the shared axis is at most 8; the fire
direction is then the cardinal direction from the ship toward the enemy.
The claim's three examples hold (the middle one with distance 10, not the
stated 9). -/
theorem shoot_in_range_amended :
    (∀ enemy ship : Ship,
      (shoot_enemy_if_in_range enemy ship ≠ [] ↔
        ((ship.x, ship.y) ≠ (enemy.x, enemy.y) ∧
         (ship.y = enemy.y ∨ ship.x = enemy.x) ∧
         alignedDist ship enemy ≤ 8)) ∧
      (∀ d, specCardinalDir ship enemy = some d →
        alignedDist ship enemy ≤ 8 →
        shoot_enemy_if_in_range enemy ship = [ship.id, 1, d])) ∧
    shoot_enemy_if_in_range ⟨50, 10, 15, 100, 0, 0⟩ ⟨7, 10, 10, 100, 0, 0⟩ =
      [7, 1, 1] ∧
    shoot_enemy_if_in_range ⟨50, 10, 20, 100, 0, 0⟩ ⟨7, 10, 10, 100, 0, 0⟩ =
      [] ∧
    shoot_enemy_if_in_range ⟨50, 15, 12, 100, 0, 0⟩ ⟨7, 10, 10, 100, 0, 0⟩ =
      [] := by
  refine ⟨fun enemy ship => ⟨⟨fun hne => ?_, fun hcond => ?_⟩,
    fun d hdir hdist => ?_⟩, rfl, rfl, rfl⟩
  · simp only [shoot_enemy_if_in_range] at hne
    split_ifs at hne with h1 h2 h3 h4
    · obtain ⟨ha, hb, hc⟩ := h1
      refine ⟨?_, Or.inl ha, ?_⟩
      · simp only [Ne, Prod.mk.injEq, not_and]; omega
      · simp only [alignedDist, ha, if_pos, iabs]; split_ifs <;> omega
    · obtain ⟨ha, hb, hc⟩ := h2
      refine ⟨?_, Or.inl ha, ?_⟩
      · simp only [Ne, Prod.mk.injEq, not_and]; omega
      · simp only [alignedDist, ha, if_pos, iabs]; split_ifs <;> omega
    · obtain ⟨ha, hb, hc⟩ := h3
      refine ⟨?_, Or.inr ha, ?_⟩
      · simp only [Ne, Prod.mk.injEq, not_and]; omega
      · simp only [alignedDist, iabs]; split_ifs <;> omega
    · obtain ⟨ha, hb, hc⟩ := h4
      refine ⟨?_, Or.inr ha, ?_⟩
      · simp only [Ne, Prod.mk.injEq, not_and]; omega
      · simp only [alignedDist, iabs]; split_ifs <;> omega
    · exact absurd rfl hne
  · rcases hcond with ⟨hne2, hal, hd⟩
    simp only [Ne, Prod.mk.injEq, not_and] at hne2
    simp only [alignedDist, iabs] at hd
    simp only [shoot_enemy_if_in_range]
    split_ifs with h1 h2 h3 h4 <;> try simp
    exfalso
    split_ifs at hd <;> rcases hal with h | h <;> omega
  · simp only [specCardinalDir] at hdir
    simp only [alignedDist, iabs] at hdist
    simp only [shoot_enemy_if_in_range]
    split_ifs at hdir with g1 g2 g3 g4 g5 <;> injection hdir with hd2 <;>
      subst hd2 <;> split_ifs with f1 f2 f3 f4 <;> try rfl
    all_goals (exfalso; split_ifs at hdist <;> omega)

/-- Witness for the amended C3: an enemy 4 tiles to the right on the same
row draws fire to the right. -/
theorem shoot_in_range_amended_witness :
    shoot_enemy_if_in_range ⟨50, 14, 10, 100, 0, 0⟩ ⟨7, 10, 10, 100, 0, 0⟩ =
      [7, 1, 0] :=
  (shoot_in_range_amended.1 ⟨50, 14, 10, 100, 0, 0⟩
    ⟨7, 10, 10, 100, 0, 0⟩).2 0 rfl (by decide)

lemma shipById_spec : ∀ (l : List Ship) (i : Int) (s : Ship),
    shipById l i = some s → s.id = i ∧ s ∈ l := by
  intro l
  induction l with
  | nil => intro i s h; cases h
  | cons t rest ih =>
    intro i s h
    simp only [shipById] at h
    rcases hr : shipById rest i with _ | u
    · rw [hr] at h
      dsimp only at h
      split_ifs at h with ht
      · cases h; exact ⟨ht, List.mem_cons_self t rest⟩
    · rw [hr] at h
      dsimp only at h
      cases h
      obtain ⟨h1, h2⟩ := ih i s hr
      exact ⟨h1, List.mem_cons_of_mem t h2⟩

lemma schedulerStep1_preserve : ∀ (l : List Ship) (st : SchedSt) (i : Int),
    (st.roles i).isSome = true →
    ((schedulerStep1 l st).roles i).isSome = true := by
  intro l
  induction l with
  | nil => exact fun st i h => h
  | cons s rest ih =>
    intro st i h
    cases hr : st.roles s.id with
    | some r =>
      simp only [schedulerStep1, hr]
      exact ih _ _ h
    | none =>
      simp only [schedulerStep1, hr]
      apply ih
      simp only [updateRole]
      split
      · rfl
      · exact h

lemma schedulerStep1_covers : ∀ (l : List Ship) (st : SchedSt) (s : Ship),
    s ∈ l → ((schedulerStep1 l st).roles s.id).isSome = true := by
  intro l
  induction l with
  | nil => intro st s h; cases h
  | cons t rest ih =>
    intro st s h
    rcases List.mem_cons.mp h with rfl | hm
    · cases hr : st.roles s.id with
      | some r =>
        simp only [schedulerStep1, hr]
        exact schedulerStep1_preserve rest _ _ (by simp [hr])
      | none =>
        simp only [schedulerStep1, hr]
        exact schedulerStep1_preserve rest _ _ (by simp [updateRole])
    · cases hr : st.roles t.id with
      | some r => simp only [schedulerStep1, hr]; exact ih _ _ hm
      | none => simp only [schedulerStep1, hr]; exact ih _ _ hm

lemma updateRole_isSome (roles : Int → Option Role) (k : Int) (r : Role)
    (i : Int) (h : (roles i).isSome = true) :
    ((updateRole roles k r) i).isSome = true := by
  simp only [updateRole]
  split
  · rfl
  · exact h

lemma tryOneReassign_preserve (ships : List Ship) (dest ex : Role)
    (st : SchedSt) (i : Int) (h : (st.roles i).isSome = true) :
    ((tryOneReassign ships dest ex st).roles i).isSome = true := by
  simp only [tryOneReassign]
  cases hf : findEligible st.roles ex dest ships with
  | some s => exact updateRole_isSome _ _ _ _ h
  | none => exact h

lemma tryExcessList_preserve : ∀ (exs : List Role) (ships : List Ship)
    (tgt : Role → Nat) (dest : Role) (st : SchedSt) (i : Int),
    (st.roles i).isSome = true →
    ((tryExcessList ships tgt dest exs st).roles i).isSome = true := by
  intro exs
  induction exs with
  | nil => exact fun _ _ _ st i h => h
  | cons ex rest ih =>
    intro ships tgt dest st i h
    simp only [tryExcessList]
    split_ifs with hc h2
    · exact tryOneReassign_preserve _ _ _ _ _ h
    · exact ih _ _ _ _ _ (tryOneReassign_preserve _ _ _ _ _ h)
    · exact ih _ _ _ _ _ h

lemma rebalanceOne_preserve (ships : List Ship) (tgt : Role → Nat)
    (dest : Role) (st : SchedSt) (i : Int)
    (h : (st.roles i).isSome = true) :
    ((rebalanceOne ships tgt dest st).roles i).isSome = true := by
  unfold rebalanceOne
  split_ifs with hc
  · exact tryExcessList_preserve _ _ _ _ _ _ h
  · exact h

lemma exploreInit_roles (px sid : Int) (ag : AgentState) :
    (exploreInit px sid ag).shipRoles = ag.shipRoles := by
  simp only [exploreInit]
  split_ifs <;> rfl

lemma wanderMove_state (s : Ship) (pat1 : ExplorePattern) (agN : AgentState)
    (rng : Rng) (a : Action) (ag2 : AgentState) (rng2 : Rng)
    (h : wanderMove s pat1 agN rng = some (a, ag2, rng2)) : ag2 = agN := by
  simp only [wanderMove] at h
  split_ifs at h <;> cases h <;> rfl

lemma exploreWander_roles (obs : Obs) (idx : Int) (s : Ship)
    (ag1 : AgentState) (rng : Rng) (a : Action) (ag2 : AgentState)
    (rng2 : Rng) (h : exploreWander obs idx s ag1 rng = some (a, ag2, rng2)) :
    ∀ i, ag2.shipRoles i = ag1.shipRoles i ∨
      (i = s.id ∧ ag2.shipRoles i = some Role.attack) := by
  intro i
  simp only [exploreWander] at h
  split at h
  case _ pat pt hdir hpat =>
    split_ifs at h with hhit hbump
    · -- border hit, second bump: promotion branch
      split at h
      · cases h
      · split at h
        · cases h
        · cases h
          by_cases hi : i = s.id
          · subst hi
            exact Or.inr ⟨rfl, by simp⟩
          · exact Or.inl (by simp [hi])
    · -- border hit, fewer than two bumps
      have := wanderMove_state _ _ _ _ _ _ _ h
      subst this
      exact Or.inl rfl
    · -- no border hit
      have := wanderMove_state _ _ _ _ _ _ _ h
      subst this
      exact Or.inl rfl
  case _ =>
    cases h

lemma exploreBody_roles : ∀ (obs : Obs) (idx px py : Int) (ag : AgentState)
    (rng : Rng) (a : Action) (ag2 : AgentState) (rng2 : Rng),
    exploreBody obs idx px py ag rng = some (a, ag2, rng2) →
    ∀ i, ag2.shipRoles i = ag.shipRoles i ∨
      (i = idx ∧ ag2.shipRoles i = some Role.attack) := by
  intro obs idx px py ag rng a ag2 rng2 h i
  simp only [exploreBody] at h
  rcases hsb : shipById obs.alliedShips idx with _ | s
  · rw [hsb] at h; cases h
  rw [hsb] at h
  dsimp only at h
  obtain ⟨hid, _⟩ := shipById_spec _ _ _ hsb
  rcases hscan : scanMap obs.map with _ | tgt
  · -- crash during the scan
    rw [hscan] at h
    split_ifs at h
    all_goals first
      | (cases h; exact Or.inl rfl)
      | cases h
  rcases tgt with _ | target
  · -- wander branch
    rw [hscan] at h
    split_ifs at h
    all_goals first
      | (cases h; exact Or.inl rfl)
      | exact (exploreWander_roles _ _ _ _ _ _ _ _ h i).imp
          (fun h2 => h2.trans (congrFun (exploreInit_roles px s.id ag) i))
          (fun hp => ⟨hp.1.trans hid, hp.2⟩)
  · -- valuable target found
    rw [hscan] at h
    split_ifs at h
    all_goals (cases h; exact Or.inl rfl)

lemma explore_roles : ∀ (obs : Obs) (idx px py : Int) (ag : AgentState)
    (rng : Rng) (a : Action) (ag2 : AgentState) (rng2 : Rng),
    get_explore_action obs idx px py ag rng = some (a, ag2, rng2) →
    ∀ i, ag2.shipRoles i = ag.shipRoles i ∨
      (i = idx ∧ ag2.shipRoles i = some Role.attack) := by
  intro obs idx px py ag rng a ag2 rng2 h i
  simp only [get_explore_action] at h
  rcases he : emergencyCheck obs idx px py with _ | o
  · rw [he] at h; cases h
  rw [he] at h
  rcases o with _ | a0
  · exact exploreBody_roles _ _ _ _ _ _ _ _ _ h i
  · cases h; exact Or.inl rfl

lemma actLoop_roles : ∀ (obs : Obs) (l : List Ship) (st : AgentState)
    (rng : Rng) (acc acts : List Action) (st5 : AgentState) (rng5 : Rng),
    (∀ s, s ∈ l → s ∈ obs.alliedShips) →
    actLoop obs l st rng acc = some (acts, st5, rng5) →
    ∀ i, st5.shipRoles i = st.shipRoles i ∨
      (∃ s, s ∈ obs.alliedShips ∧ s.id = i ∧
        st5.shipRoles i = some Role.attack) := by
  intro obs l
  induction l with
  | nil =>
    intro st rng acc acts st5 rng5 _ h i
    cases h
    exact Or.inl rfl
  | cons s rest ih =>
    intro st rng acc acts st5 rng5 hsub h i
    have hsmem : s ∈ obs.alliedShips := hsub s (List.mem_cons_self s rest)
    have hrest : ∀ t, t ∈ rest → t ∈ obs.alliedShips :=
      fun t ht => hsub t (List.mem_cons_of_mem s ht)
    simp only [actLoop] at h
    rcases hrole : st.shipRoles s.id with _ | role
    · rw [hrole] at h; cases h
    rw [hrole] at h
    dsimp only at h
    cases role with
    | defend =>
      rcases hhp : st.homePlanet with _ | hp
      · rw [hhp] at h; cases h
      rw [hhp] at h
      dsimp only at h
      rcases hda : get_defense_action obs s.id hp.1 hp.2.1 rng with
        _ | ⟨a, rng2⟩
      · rw [hda] at h; cases h
      rw [hda] at h
      dsimp only at h
      exact ih _ _ _ _ _ _ hrest h i
    | explore =>
      rcases hhp : st.homePlanet with _ | hp
      · rw [hhp] at h; cases h
      rw [hhp] at h
      dsimp only at h
      rcases hea : get_explore_action obs s.id hp.1 hp.2.1 st rng with
        _ | ⟨a2, st2, rng2⟩
      · rw [hea] at h; cases h
      rw [hea] at h
      dsimp only at h
      have hmid := explore_roles _ _ _ _ _ _ _ _ _ hea i
      rcases ih _ _ _ _ _ _ hrest h i with h5 | h5
      · rw [h5]
        rcases hmid with h6 | ⟨h6, h7⟩
        · exact Or.inl h6
        · exact Or.inr ⟨s, hsmem, h6.symm, h7⟩
      · exact Or.inr h5
    | attack =>
      rcases hep : st.enemyPlanet with _ | ep
      · rw [hep] at h; cases h
      rw [hep] at h
      dsimp only at h
      rcases hoa : get_offense_action obs s.id ep.1 ep.2 with _ | a2
      · rw [hoa] at h; cases h
      rw [hoa] at h
      dsimp only at h
      exact ih _ _ _ _ _ _ hrest h i

/-- Claim C1: after every scheduler call, every ship id present in the
roster is mapped to exactly one role (the map is defined there, with a
single `Role` value from explore/attack/defend) and ids absent from the
roster have no entry; the scheduler is total.  The same domain equality is
an invariant of every completed `get_action` step. -/
theorem scheduler_role_domain :
    (∀ (turn : Nat) (roles : Int → Option Role) (ships : List Ship)
      (i : Int),
      ((scheduler turn roles ships) i).isSome =
        ships.any (fun s => s.id == i)) ∧
    (∀ (st : AgentState) (obs : Obs) (rng : Rng)
      (r : Batch × AgentState × Rng),
      get_action st obs rng = some r →
      ∀ i, ((r.2.1.shipRoles i).isSome =
        obs.alliedShips.any (fun s => s.id == i))) := by
  have hmain : ∀ (turn : Nat) (roles : Int → Option Role)
      (ships : List Ship) (i : Int),
      ((scheduler turn roles ships) i).isSome =
        ships.any (fun s => s.id == i) := by
    intro turn roles ships i
    simp only [scheduler]
    by_cases hany : ships.any (fun s => s.id == i) = true
    · rw [if_pos hany, hany]
      obtain ⟨s, hmem, hid⟩ := List.any_eq_true.mp hany
      have hid2 : s.id = i := by simpa using hid
      subst hid2
      exact rebalanceOne_preserve _ _ _ _ _
        (rebalanceOne_preserve _ _ _ _ _
          (rebalanceOne_preserve _ _ _ _ _
            (schedulerStep1_covers ships _ s hmem)))
    · rw [if_neg hany]
      simp only [Option.isSome_none]
      exact (Bool.eq_false_iff.mpr hany).symm
  refine ⟨hmain, ?_⟩
  intro st obs rng r h i
  simp only [get_action] at h
  split at h
  · cases h
  · rename_i acts st5 rng5 heq
    cases h
    have hP := actLoop_roles obs obs.alliedShips _ rng [] acts st5 rng5
      (fun s hs => hs) heq i
    rcases hP with h5 | ⟨s, hsmem, hsid, h5⟩
    · rw [h5]
      exact hmain _ _ _ i
    · rw [h5]
      simp only [Option.isSome_some]
      exact (List.any_eq_true.mpr ⟨s, hsmem, by simpa using hsid⟩).symm

/-- Witness for C1: the scheduler maps the sole roster ship id 1 to a role,
and a completed concrete `get_action` step preserves the domain. -/
theorem scheduler_role_domain_witness :
    ((scheduler 1000 (fun _ => none) [shipC2]) 1).isSome = true ∧
    ∃ r, get_action stC2 obsC2 rng0 = some r ∧
      (r.2.1.shipRoles 1).isSome = true := by
  constructor
  · exact (scheduler_role_domain.1 1000 (fun _ => none) [shipC2] 1).trans rfl
  · have hs : (get_action stC2 obsC2 rng0).isSome = true := rfl
    refine ⟨(get_action stC2 obsC2 rng0).get hs, (Option.some_get hs).symm, ?_⟩
    exact ((scheduler_role_domain.2) stC2 obsC2 rng0 _
      (Option.some_get hs).symm 1).trans rfl

lemma findEligible_spec : ∀ (l : List Ship) (roles : Int → Option Role)
    (ex dest : Role) (s : Ship),
    findEligible roles ex dest l = some s →
    s ∈ l ∧ roles s.id = some ex ∧
      ¬(dest = Role.attack ∧ s.health < 30) := by
  intro l roles ex dest
  induction l with
  | nil => intro s h; cases h
  | cons t rest ih =>
    intro s h
    simp only [findEligible] at h
    split_ifs at h with hcond
    · cases h
      exact ⟨List.mem_cons_self t rest, hcond.1, hcond.2⟩
    · obtain ⟨h1, h2, h3⟩ := ih s h
      exact ⟨List.mem_cons_of_mem t h1, h2, h3⟩

lemma tryOneReassign_attack_safe (ships : List Ship) (dest ex : Role)
    (st : SchedSt) (i : Int)
    (h : (tryOneReassign ships dest ex st).roles i = some Role.attack) :
    st.roles i = some Role.attack ∨
      ∃ s, s ∈ ships ∧ s.id = i ∧ 30 ≤ s.health := by
  simp only [tryOneReassign] at h
  cases hf : findEligible st.roles ex dest ships with
  | none => rw [hf] at h; exact Or.inl h
  | some s =>
    rw [hf] at h
    obtain ⟨hmem, _, hblock⟩ := findEligible_spec _ _ _ _ _ hf
    simp only [updateRole] at h
    by_cases hi : i = s.id
    · rw [if_pos hi] at h
      injection h with hde
      subst hde
      right
      refine ⟨s, hmem, hi.symm, ?_⟩
      by_contra hlt
      exact hblock ⟨rfl, by omega⟩
    · rw [if_neg hi] at h
      exact Or.inl h

lemma tryExcessList_attack_safe : ∀ (exs : List Role) (ships : List Ship)
    (tgt : Role → Nat) (dest : Role) (st : SchedSt) (i : Int),
    (tryExcessList ships tgt dest exs st).roles i = some Role.attack →
    st.roles i = some Role.attack ∨
      ∃ s, s ∈ ships ∧ s.id = i ∧ 30 ≤ s.health := by
  intro exs
  induction exs with
  | nil => exact fun _ _ _ st i h => Or.inl h
  | cons ex rest ih =>
    intro ships tgt dest st i h
    simp only [tryExcessList] at h
    split_ifs at h with hc h2
    · exact tryOneReassign_attack_safe _ _ _ _ _ h
    · rcases ih _ _ _ _ _ h with h3 | h3
      · exact tryOneReassign_attack_safe _ _ _ _ _ h3
      · exact Or.inr h3
    · exact ih _ _ _ _ _ h

lemma rebalanceOne_attack_safe (ships : List Ship) (tgt : Role → Nat)
    (dest : Role) (st : SchedSt) (i : Int)
    (h : (rebalanceOne ships tgt dest st).roles i = some Role.attack) :
    st.roles i = some Role.attack ∨
      ∃ s, s ∈ ships ∧ s.id = i ∧ 30 ≤ s.health := by
  simp only [rebalanceOne] at h
  split_ifs at h with hc
  · exact tryExcessList_attack_safe _ _ _ _ _ _ h
  · exact Or.inl h

/-- Counterexample to C5 as stated: at turn 800 the rebalancing pass moves
ship 0 — health exactly 30, initially Explore by the `id mod 3` default —
into the Attack role, because the source guard is `health < 30`, not the
claimed `health ≤ 30`. -/
theorem rebalance_health_cex :
    scheduler 800 (fun _ => none)
      [⟨0, 10, 10, 30, 0, 0⟩, ⟨3, 11, 11, 100, 0, 0⟩] 0 =
      some Role.attack ∧
    (schedulerStep1 [⟨0, 10, 10, 30, 0, 0⟩, ⟨3, 11, 11, 100, 0, 0⟩]
      ⟨(fun _ => none), ⟨0, 0, 0⟩⟩).roles 0 = some Role.explore ∧
    (⟨0, 10, 10, 30, 0, 0⟩ : Ship).health ≤ 30 :=
  ⟨rfl, rfl, by decide⟩

/-- C5 amended: the rebalancing pass never reassigns a ship with health
strictly below 30 to Attack — for a roster with distinct ids, any ship that
ends the scheduler in the Attack role either already held Attack right
after the initial default-assignment step, or has health at least 30. -/
theorem rebalance_health_amended :
    ∀ (turn : Nat) (roles : Int → Option Role) (ships : List Ship),
    (ships.map Ship.id).Nodup →
    ∀ s, s ∈ ships →
    scheduler turn roles ships s.id = some Role.attack →
    (schedulerStep1 ships ⟨roles, ⟨0, 0, 0⟩⟩).roles s.id = some Role.attack ∨
      30 ≤ s.health := by
  intro turn roles ships hnd s hmem hsched
  have hfin : (∃ t, t ∈ ships ∧ t.id = s.id ∧ 30 ≤ t.health) →
      30 ≤ s.health := by
    rintro ⟨t, hm2, hid2, hh2⟩
    have : t = s := List.inj_on_of_nodup_map hnd hm2 hmem hid2
    exact this ▸ hh2
  have hany : (ships.any (fun t => t.id == s.id)) = true :=
    List.any_eq_true.mpr ⟨s, hmem, by simp⟩
  simp only [scheduler] at hsched
  rw [if_pos hany] at hsched
  rcases rebalanceOne_attack_safe _ _ _ _ _ hsched with h3 | h3
  · rcases rebalanceOne_attack_safe _ _ _ _ _ h3 with h2 | h2
    · rcases rebalanceOne_attack_safe _ _ _ _ _ h2 with h1 | h1
      · exact Or.inl h1
      · exact Or.inr (hfin h1)
    · exact Or.inr (hfin h2)
  · exact Or.inr (hfin h3)

/-- Witness for the amended C5: a lone healthy ship that keeps the Attack
role at turn 800. -/
theorem rebalance_health_amended_witness :
    (schedulerStep1 [⟨1, 5, 5, 100, 0, 0⟩]
      ⟨(fun _ => none), ⟨0, 0, 0⟩⟩).roles 1 = some Role.attack ∨
    30 ≤ (⟨1, 5, 5, 100, 0, 0⟩ : Ship).health :=
  rebalance_health_amended 800 (fun _ => none) [⟨1, 5, 5, 100, 0, 0⟩]
    (by decide) ⟨1, 5, 5, 100, 0, 0⟩ (by simp) rfl

lemma return_home_snd (s : Ship) (hx hy : Int) :
    (return_home s hx hy).get? 1 = some 0 := by
  simp only [return_home]
  split_ifs <;> rfl

lemma shoot_shape (e s : Ship) :
    shoot_enemy_if_in_range e s = [] ∨
    ∃ d, shoot_enemy_if_in_range e s = [s.id, 1, d] := by
  simp only [shoot_enemy_if_in_range]
  split_ifs <;> first | exact Or.inl rfl | exact Or.inr ⟨_, rfl⟩

lemma firstShot_shape : ∀ (es : List Ship) (s : Ship),
    firstShot es s = [] ∨ ∃ d, firstShot es s = [s.id, 1, d] := by
  intro es s
  induction es with
  | nil => exact Or.inl rfl
  | cons e rest ih =>
    simp only [firstShot]
    split_ifs with hne
    · rcases shoot_shape e s with h | ⟨d, h⟩
      · exact absurd h hne
      · exact Or.inr ⟨d, h⟩
    · exact ih

lemma emergencyCheck_cases (obs : Obs) (idx px py : Int) (s : Ship)
    (hs : shipById obs.alliedShips idx = some s) :
    ∀ o, emergencyCheck obs idx px py = some o →
    o = none ∨ o = some (return_home s px py) := by
  intro o h
  rcases hpl : obs.planetsOccupation with _ | ⟨p, rest⟩
  · simp only [emergencyCheck, hs, hpl] at h
    split_ifs at h
    all_goals (cases h; try exact Or.inl rfl)
  · simp only [emergencyCheck, hs, hpl] at h
    split_ifs at h <;> (cases h; first | exact Or.inl rfl | exact Or.inr rfl)

lemma offense_no_fire (obs : Obs) (idx px py : Int) (s : Ship) (a : Action)
    (hs : shipById obs.alliedShips idx = some s) (hcd : s.fireCd ≠ 0)
    (h : get_offense_action obs idx px py = some a) : a.get? 1 = some 0 := by
  simp only [get_offense_action] at h
  rcases he : emergencyCheck obs idx px py with _ | o
  · rw [he] at h; cases h
  rw [he] at h
  rcases emergencyCheck_cases obs idx px py s hs o he with rfl | rfl
  · simp only [offenseBody, hs] at h
    rw [if_neg hcd] at h
    rw [if_neg (fun hh => hh rfl)] at h
    cases h
    rfl
  · cases h
    exact return_home_snd s px py

lemma wanderMove_no_fire (s : Ship) (pat1 : ExplorePattern)
    (agN : AgentState) (rng : Rng) (a : Action) (ag2 : AgentState)
    (rng2 : Rng) (h : wanderMove s pat1 agN rng = some (a, ag2, rng2)) :
    a.get? 1 = some 0 := by
  simp only [wanderMove] at h
  split_ifs at h <;> cases h <;> rfl

lemma exploreWander_no_fire (obs : Obs) (idx : Int) (s : Ship)
    (ag1 : AgentState) (rng : Rng) (a : Action) (ag2 : AgentState)
    (rng2 : Rng) (hs : shipById obs.alliedShips idx = some s)
    (hcd : s.fireCd ≠ 0)
    (h : exploreWander obs idx s ag1 rng = some (a, ag2, rng2)) :
    a.get? 1 = some 0 := by
  simp only [exploreWander] at h
  split at h
  case _ pat pt hdir hpat =>
    split_ifs at h with hhit hbump
    · split at h
      · cases h
      · rename_i ep hep
        split at h
        · cases h
        · rename_i a3 hoff
          cases h
          exact offense_no_fire obs idx ep.1 ep.2 s _ hs hcd hoff
    · exact wanderMove_no_fire _ _ _ _ _ _ _ h
    · exact wanderMove_no_fire _ _ _ _ _ _ _ h
  case _ => cases h

lemma explore_no_fire (obs : Obs) (idx px py : Int) (ag : AgentState)
    (rng : Rng) (s : Ship) (a : Action) (ag2 : AgentState) (rng2 : Rng)
    (hs : shipById obs.alliedShips idx = some s) (hcd : s.fireCd ≠ 0)
    (h : get_explore_action obs idx px py ag rng = some (a, ag2, rng2)) :
    a.get? 1 = some 0 := by
  simp only [get_explore_action] at h
  rcases he : emergencyCheck obs idx px py with _ | o
  · rw [he] at h; cases h
  rw [he] at h
  rcases emergencyCheck_cases obs idx px py s hs o he with rfl | rfl
  · simp only [exploreBody, hs] at h
    rw [if_neg hcd] at h
    rw [if_neg (fun hh => hh rfl)] at h
    rcases hscan : scanMap obs.map with _ | tgt
    · rw [hscan] at h; cases h
    rw [hscan] at h
    rcases tgt with _ | target
    · exact exploreWander_no_fire _ _ _ _ _ _ _ _ hs hcd h
    · cases h
      split_ifs <;> rfl
  · cases h
    exact return_home_snd s px py

/-- C7 amended: the fire-if-aligned attempt is gated on a zero firing
cooldown only in the Explore and Attack behaviors — a ship with nonzero
firing cooldown never emits a fire action there (every emitted action has
action type 0).  The Defend behavior has no such gate: whenever its shared
fire check finds an aligned in-range enemy, it returns that fire action
regardless of the ship's firing cooldown. -/
theorem fire_cooldown_amended :
    (∀ (obs : Obs) (idx px py : Int) (s : Ship) (a : Action),
      shipById obs.alliedShips idx = some s → s.fireCd ≠ 0 →
      get_offense_action obs idx px py = some a → a.get? 1 = some 0) ∧
    (∀ (obs : Obs) (idx px py : Int) (ag : AgentState) (rng : Rng)
      (s : Ship) (a : Action) (ag2 : AgentState) (rng2 : Rng),
      shipById obs.alliedShips idx = some s → s.fireCd ≠ 0 →
      get_explore_action obs idx px py ag rng = some (a, ag2, rng2) →
      a.get? 1 = some 0) ∧
    (∀ (obs : Obs) (idx px py : Int) (rng : Rng) (s : Ship),
      shipById obs.alliedShips idx = some s →
      emergencyCheck obs idx px py = some none →
      firstShot obs.enemyShips s ≠ [] →
      get_defense_action obs idx px py rng =
        some (firstShot obs.enemyShips s, rng)) := by
  refine ⟨fun obs idx px py s a hs hcd h =>
      offense_no_fire obs idx px py s a hs hcd h,
    fun obs idx px py ag rng s a ag2 rng2 hs hcd h =>
      explore_no_fire obs idx px py ag rng s a ag2 rng2 hs hcd h,
    fun obs idx px py rng s hs he hshot => ?_⟩
  simp only [get_defense_action, he, defenseBody, hs]
  rw [if_pos hshot]

/-- Witness for the amended C7: the cooldown-1 attacker of the C2 scenario
emits a move (type 0), and the cooldown-5 defender of the C7 scenario
emits its aligned fire action. -/
theorem fire_cooldown_amended_witness :
    (∃ a, get_offense_action obsC2 1 90 90 = some a ∧ a.get? 1 = some 0) ∧
    get_defense_action obsC7 1 9 9 rng0 =
      some (firstShot obsC7.enemyShips shipC7, rng0) := by
  constructor
  · exact ⟨[1, 0, 1, 3], rfl,
      fire_cooldown_amended.1 obsC2 1 90 90 shipC2 [1, 0, 1, 3] rfl
        (by decide) rfl⟩
  · exact fire_cooldown_amended.2.2 obsC7 1 9 9 rng0 shipC7 rfl rfl
      (by decide)

/-- C2 amended: each role behavior is wrapped with a reference planet —
the latched home planet for Explore and Defend, but the inferred enemy
planet for Attack as dispatched by `get_action`.  The wrapper emits the
`return_home` move toward its reference planet `(px, py)` exactly when the
ship is within Manhattan distance 100 of it and the first visible planet's
occupation differs from 0 for reference x = 9, or from 100 for reference
x = 90; otherwise (including every reference x outside {9, 90}) it
delegates unchanged to the wrapped body. -/
theorem emergency_override_amended :
    ∀ (obs : Obs) (idx px py : Int) (s : Ship) (p : Planet3)
      (rest : List Planet3) (rng : Rng) (ag : AgentState),
    obs.planetsOccupation = p :: rest →
    shipById obs.alliedShips idx = some s →
    ((iabs (s.x - px) + iabs (s.y - py) ≤ 100 ∧
        ((px = 9 ∧ p.2.2 ≠ 0) ∨ (px = 90 ∧ p.2.2 ≠ 100))) →
      get_offense_action obs idx px py = some (return_home s px py) ∧
      get_defense_action obs idx px py rng =
        some (return_home s px py, rng) ∧
      get_explore_action obs idx px py ag rng =
        some (return_home s px py, ag, rng)) ∧
    (¬(iabs (s.x - px) + iabs (s.y - py) ≤ 100 ∧
        ((px = 9 ∧ p.2.2 ≠ 0) ∨ (px = 90 ∧ p.2.2 ≠ 100))) →
      get_offense_action obs idx px py = offenseBody obs idx px py ∧
      get_defense_action obs idx px py rng = defenseBody obs idx px py rng ∧
      get_explore_action obs idx px py ag rng =
        exploreBody obs idx px py ag rng) := by
  intro obs idx px py s p rest rng ag hpl hs
  have hec : emergencyCheck obs idx px py =
      (if iabs (s.x - px) + iabs (s.y - py) ≤ 100 ∧
          ((px = 9 ∧ p.2.2 ≠ 0) ∨ (px = 90 ∧ p.2.2 ≠ 100)) then
        some (some (return_home s px py))
      else some none) := by
    simp only [emergencyCheck, hs, hpl]
    split_ifs <;> first | rfl | tauto
  constructor
  · intro hcond
    have h2 : emergencyCheck obs idx px py =
        some (some (return_home s px py)) := by
      rw [hec, if_pos hcond]
    refine ⟨?_, ?_, ?_⟩ <;>
      simp only [get_offense_action, get_defense_action,
        get_explore_action, h2]
  · intro hcond
    have h2 : emergencyCheck obs idx px py = some none := by
      rw [hec, if_neg hcond]
    refine ⟨?_, ?_, ?_⟩ <;>
      simp only [get_offense_action, get_defense_action,
        get_explore_action, h2]

/-- Witness for the amended C2: the ship of the C2 scenario, wrapped with
its home planet (9, 9) at occupation 50, is overridden to the return-home
move in all three behaviors. -/
theorem emergency_override_amended_witness :
    get_offense_action obsC2 1 9 9 = some (return_home shipC2 9 9) ∧
    get_defense_action obsC2 1 9 9 rng0 =
      some (return_home shipC2 9 9, rng0) ∧
    get_explore_action obsC2 1 9 9 stC2 rng0 =
      some (return_home shipC2 9 9, stC2, rng0) :=
  (emergency_override_amended obsC2 1 9 9 shipC2 (9, 9, 50) [] rng0 stC2
    rfl rfl).1 (by decide)

lemma return_home_movesToward (s : Ship) (hx hy : Int)
    (h : ¬(s.x = hx ∧ s.y = hy)) :
    movesToward (return_home s hx hy) s hx hy := by
  simp only [return_home, movesToward, iabs]
  split_ifs <;> simp_all <;> omega

lemma offenseMove_style (s : Ship) (px py : Int)
    (hpos : ¬(s.x = px ∧ s.y = py)) (speed : Int) :
    movesToward [s.id, 0,
      (if iabs (px - s.x) > iabs (py - s.y) then
        (if px - s.x > 0 then (0 : Int) else 2)
      else (if py - s.y > 0 then (1 : Int) else 3)), speed] s px py := by
  simp only [movesToward, iabs]
  split_ifs <;> simp_all <;> omega

lemma emergencyCheck_total (obs : Obs) (idx px py : Int) (s : Ship)
    (hs : shipById obs.alliedShips idx = some s)
    (hpl : obs.planetsOccupation ≠ []) :
    ∃ o, emergencyCheck obs idx px py = some o := by
  rcases hp : obs.planetsOccupation with _ | ⟨p, rest⟩
  · exact absurd hp hpl
  · simp only [emergencyCheck, hs, hp]
    split_ifs <;> exact ⟨_, rfl⟩

lemma offenseBody_style (obs : Obs) (idx px py : Int) (s : Ship)
    (hs : shipById obs.alliedShips idx = some s)
    (hpos : ¬(s.x = px ∧ s.y = py)) :
    ∃ a, offenseBody obs idx px py = some a ∧ attackStyle a s px py := by
  simp only [offenseBody, hs]
  set shot := if s.fireCd = 0 then firstShot obs.enemyShips s else []
    with hshot
  have hsh : shot = [] ∨ ∃ d, shot = [s.id, 1, d] := by
    rw [hshot]
    split_ifs
    · exact firstShot_shape _ _
    · exact Or.inl rfl
  rcases hsh with hsh | ⟨d, hsh⟩
  · rw [hsh, if_neg (fun hh => hh rfl)]
    exact ⟨_, rfl, Or.inr ⟨rfl, offenseMove_style s px py hpos _⟩⟩
  · rw [hsh, if_pos (by simp)]
    exact ⟨_, rfl, Or.inl rfl⟩

lemma offense_attackStyle (obs : Obs) (idx px py : Int) (s : Ship)
    (hs : shipById obs.alliedShips idx = some s)
    (hpl : obs.planetsOccupation ≠ [])
    (hpos : ¬(s.x = px ∧ s.y = py)) :
    ∃ a, get_offense_action obs idx px py = some a ∧
      attackStyle a s px py := by
  obtain ⟨o, ho⟩ := emergencyCheck_total obs idx px py s hs hpl
  rcases emergencyCheck_cases obs idx px py s hs o ho with rfl | rfl
  · obtain ⟨a, ha, hstyle⟩ := offenseBody_style obs idx px py s hs hpos
    exact ⟨a, by simp only [get_offense_action, ho, ha], hstyle⟩
  · refine ⟨return_home s px py, by simp only [get_offense_action, ho], ?_⟩
    exact Or.inr ⟨return_home_snd s px py, return_home_movesToward s px py hpos⟩

/-- Claim C8: an Explore ship in the wander branch (no valuable tile
found) that hits a board edge has the violated direction flipped in its
stored pattern, and when this bounce raises its bump count to 2 its role
map entry becomes Attack and the action emitted that same step is
attack-style — a fire, or a move toward the enemy planet — not an explore
wander. -/
theorem explore_bounce_promotion :
    ∀ (obs : Obs) (idx px py : Int) (ag : AgentState) (rng : Rng) (s : Ship)
      (pat : ExplorePattern) (pt : Nat) (ex ey : Int),
    shipById obs.alliedShips idx = some s →
    emergencyCheck obs idx px py = some none →
    (s.fireCd = 0 → firstShot obs.enemyShips s = []) →
    scanMap obs.map = some none →
    ag.shipDirections s.id = some pat →
    ag.shipPatterns s.id = some pt →
    (borderFlip pat s.x s.y).2 = true →
    ag.shipBumpCount s.id = 1 →
    ag.enemyPlanet = some (ex, ey) →
    obs.planetsOccupation ≠ [] →
    ¬(s.x = ex ∧ s.y = ey) →
    ∃ a ag2 rng2,
      get_explore_action obs idx px py ag rng = some (a, ag2, rng2) ∧
      ag2.shipRoles s.id = some Role.attack ∧
      ag2.shipDirections s.id = some (borderFlip pat s.x s.y).1 ∧
      ag2.shipBumpCount s.id = 2 ∧
      attackStyle a s ex ey := by
  intro obs idx px py ag rng s pat pt ex ey hs hem hfs hscan hdir hpat
    hflip hbump hep hpl hpos
  have hshotz : (if s.fireCd = 0 then firstShot obs.enemyShips s else []) =
      [] := by
    split_ifs with hc
    · exact hfs hc
    · rfl
  have hinit : exploreInit px s.id ag = ag := by
    simp only [exploreInit]
    rw [if_pos (by rw [hdir]; rfl)]
  obtain ⟨a, hoff, hstyle⟩ :=
    offense_attackStyle obs idx ex ey s hs hpl hpos
  refine ⟨a,
    { ag with
      shipDirections := fun j =>
        if j = s.id then some (borderFlip pat s.x s.y).1
        else ag.shipDirections j,
      shipBumpCount := fun j =>
        if j = s.id then ag.shipBumpCount s.id + 1
        else ag.shipBumpCount j,
      shipRoles := fun j =>
        if j = s.id then some Role.attack else ag.shipRoles j },
    rng, ?_, by simp, by simp, by simp [hbump], hstyle⟩
  simp only [get_explore_action, hem, exploreBody, hs, hshotz,
    if_neg (fun hh : ([] : Action) ≠ [] => hh rfl), hscan, hinit,
    exploreWander, hdir, hpat, hflip, if_true]
  rw [show ag.shipBumpCount s.id = 1 from hbump]
  rw [if_pos (by norm_num)]
  simp only [hep, hoff]

/-- Witness for C8: ship 4 on the right border with one recorded bump is
promoted to Attack and emits an attack-style action. -/
theorem explore_bounce_promotion_witness :
    ∃ a ag2 rng2,
      get_explore_action obsC8 4 90 90 agC8 rng0 = some (a, ag2, rng2) ∧
      ag2.shipRoles 4 = some Role.attack ∧
      ag2.shipDirections 4 = some (borderFlip ⟨0, 1, 4, 1⟩ 99 50).1 ∧
      ag2.shipBumpCount 4 = 2 ∧
      attackStyle a shipC8 9 9 :=
  explore_bounce_promotion obsC8 4 90 90 agC8 rng0 shipC8 ⟨0, 1, 4, 1⟩ 0 9 9
    rfl rfl (fun _ => rfl) rfl rfl rfl rfl rfl rfl (by decide) (by decide)

end TaskFive
